import Mathlib

/-!
Verification development for the code-server log monitoring tool
(`log_process.py`).  The Python source is shallowly embedded:

* a `datetime` value is represented by its microsecond offset from
  `datetime.min` (0001-01-01 00:00:00, the proleptic-Gregorian epoch);
* `datetime.strptime(s, "%Y-%m-%d %H:%M:%S.%f")` is embedded as
  `parseLogTime`, a committed-choice parser implementing the regular
  expression CPython compiles for this fixed format
  (`\d\d\d\d-(1[0-2]|0[1-9]|[1-9])-(3[01]|[12]\d|0[1-9]|[1-9]| [1-9])\s+`
  `(2[0-3]|[0-1]\d|\d):([0-5]\d|\d):(6[0-1]|[0-5]\d|\d)\.([0-9]{1,6})`,
  full-string match), followed by the `datetime` constructor validation
  (year at least 1, day within the month, seconds at most 59).  For this
  format the committed chain agrees with backtracking, because every
  two-character alternative consumes a digit in second position while
  the following literal is never a digit;
* a Python `dict` keyed by `datetime` is an association list in
  insertion order, with in-place update and append-on-miss;
* `timedelta(**interval)` is its total width in microseconds (`w`);
* a log file is the list of its lines; `readline()` past end of file
  returns the empty string, which is modelled explicitly in the
  fuel-indexed first pass `firstPassFuel`.
-/

/-- Microseconds in one day (`timedelta(days=1)`). -/
def microsPerDay : Nat := 86400000000

/-- Decimal digit test on a character (regex `\d` over ASCII input). -/
def isDigitChar (c : Char) : Bool := 48 ≤ c.toNat && c.toNat ≤ 57

/-- Numeric value of a decimal digit character. -/
def digitVal (c : Char) : Nat := c.toNat - 48

/-- Character range test, `lo ≤ c ≤ hi` by code point. -/
def charBetween (c lo hi : Char) : Bool := lo.toNat ≤ c.toNat && c.toNat ≤ hi.toNat

/-- Python `\s` over the ASCII whitespace characters. -/
def isPySpace (c : Char) : Bool :=
  c = ' ' || c = '\t' || c = '\n' || c = '\x0b' || c = '\x0c' || c = '\r'

/-- `%Y`, regex `\d\d\d\d`: exactly four digits. -/
def matchYear4 : List Char → Option (Nat × List Char)
  | c1 :: c2 :: c3 :: c4 :: rest =>
    if isDigitChar c1 && isDigitChar c2 && isDigitChar c3 && isDigitChar c4 then
      some (((digitVal c1 * 10 + digitVal c2) * 10 + digitVal c3) * 10 + digitVal c4, rest)
    else none
  | _ => none

/-- `%m`, regex `1[0-2]|0[1-9]|[1-9]`. -/
def matchMonth : List Char → Option (Nat × List Char)
  | c1 :: c2 :: rest =>
    if c1 = '1' && charBetween c2 '0' '2' then some (10 + digitVal c2, rest)
    else if c1 = '0' && charBetween c2 '1' '9' then some (digitVal c2, rest)
    else if charBetween c1 '1' '9' then some (digitVal c1, c2 :: rest)
    else none
  | [c1] => if charBetween c1 '1' '9' then some (digitVal c1, []) else none
  | [] => none

/-- `%d`, regex `3[01]|[12]\d|0[1-9]|[1-9]| [1-9]`. -/
def matchDay : List Char → Option (Nat × List Char)
  | c1 :: c2 :: rest =>
    if c1 = '3' && charBetween c2 '0' '1' then some (30 + digitVal c2, rest)
    else if charBetween c1 '1' '2' && isDigitChar c2 then
      some (digitVal c1 * 10 + digitVal c2, rest)
    else if c1 = '0' && charBetween c2 '1' '9' then some (digitVal c2, rest)
    else if charBetween c1 '1' '9' then some (digitVal c1, c2 :: rest)
    else if c1 = ' ' && charBetween c2 '1' '9' then some (digitVal c2, rest)
    else none
  | [c1] => if charBetween c1 '1' '9' then some (digitVal c1, []) else none
  | [] => none

/-- `%H`, regex `2[0-3]|[0-1]\d|\d`. -/
def matchHour : List Char → Option (Nat × List Char)
  | c1 :: c2 :: rest =>
    if c1 = '2' && charBetween c2 '0' '3' then some (20 + digitVal c2, rest)
    else if charBetween c1 '0' '1' && isDigitChar c2 then
      some (digitVal c1 * 10 + digitVal c2, rest)
    else if isDigitChar c1 then some (digitVal c1, c2 :: rest)
    else none
  | [c1] => if isDigitChar c1 then some (digitVal c1, []) else none
  | [] => none

/-- `%M`, regex `[0-5]\d|\d`. -/
def matchMinute : List Char → Option (Nat × List Char)
  | c1 :: c2 :: rest =>
    if charBetween c1 '0' '5' && isDigitChar c2 then
      some (digitVal c1 * 10 + digitVal c2, rest)
    else if isDigitChar c1 then some (digitVal c1, c2 :: rest)
    else none
  | [c1] => if isDigitChar c1 then some (digitVal c1, []) else none
  | [] => none

/-- `%S`, regex `6[0-1]|[0-5]\d|\d` (leap seconds pass the regex and are
rejected later by the `datetime` constructor). -/
def matchSecond : List Char → Option (Nat × List Char)
  | c1 :: c2 :: rest =>
    if c1 = '6' && charBetween c2 '0' '1' then some (60 + digitVal c2, rest)
    else if charBetween c1 '0' '5' && isDigitChar c2 then
      some (digitVal c1 * 10 + digitVal c2, rest)
    else if isDigitChar c1 then some (digitVal c1, c2 :: rest)
    else none
  | [c1] => if isDigitChar c1 then some (digitVal c1, []) else none
  | [] => none

/-- A literal character of the format string. -/
def matchLit (ch : Char) : List Char → Option (List Char)
  | c :: rest => if c = ch then some rest else none
  | [] => none

/-- A literal whitespace in the format, compiled by CPython to `\s+`. -/
def matchSpacesPlus : List Char → Option (List Char)
  | c :: rest => if isPySpace c then some (rest.dropWhile isPySpace) else none
  | [] => none

/-- `%f`, regex `[0-9]{1,6}` (greedy); CPython right-pads the captured
digits with zeros to microseconds: `int(f.ljust(6, "0"))`. -/
def matchFraction (s : List Char) : Option (Nat × List Char) :=
  let digs := (s.takeWhile isDigitChar).take 6
  if digs.length = 0 then none
  else
    some (digs.foldl (fun a c => a * 10 + digitVal c) 0 * 10 ^ (6 - digs.length),
      s.drop digs.length)

/-- The fields of a parsed `datetime` value. -/
structure LogDateTime where
  year : Nat
  month : Nat
  day : Nat
  hour : Nat
  minute : Nat
  second : Nat
  micro : Nat
deriving DecidableEq

/-- Gregorian leap-year test (`calendar.isleap`). -/
def isLeapYear (y : Nat) : Bool := y % 4 == 0 && (y % 100 != 0 || y % 400 == 0)

/-- Number of days in month `m` of year `y`. -/
def daysInMonth (y m : Nat) : Nat :=
  if m = 2 then (if isLeapYear y then 29 else 28)
  else if m = 4 || m = 6 || m = 9 || m = 11 then 30
  else 31

/-- `datetime.strptime(s, "%Y-%m-%d %H:%M:%S.%f")`: run the compiled
regex over the whole string, then the `datetime` constructor checks
(year at least 1, day within the month, second at most 59; the other
fields are already bounded by the regex). -/
def parseLogTime (s : List Char) : Option LogDateTime :=
  match matchYear4 s with
  | none => none
  | some (y, s1) =>
    match matchLit '-' s1 with
    | none => none
    | some s2 =>
      match matchMonth s2 with
      | none => none
      | some (mo, s3) =>
        match matchLit '-' s3 with
        | none => none
        | some s4 =>
          match matchDay s4 with
          | none => none
          | some (d, s5) =>
            match matchSpacesPlus s5 with
            | none => none
            | some s6 =>
              match matchHour s6 with
              | none => none
              | some (h, s7) =>
                match matchLit ':' s7 with
                | none => none
                | some s8 =>
                  match matchMinute s8 with
                  | none => none
                  | some (mi, s9) =>
                    match matchLit ':' s9 with
                    | none => none
                    | some s10 =>
                      match matchSecond s10 with
                      | none => none
                      | some (sec, s11) =>
                        match matchLit '.' s11 with
                        | none => none
                        | some s12 =>
                          match matchFraction s12 with
                          | none => none
                          | some (f, s13) =>
                            if s13 = [] ∧ 1 ≤ y ∧ d ≤ daysInMonth y mo ∧ sec ≤ 59 then
                              some ⟨y, mo, d, h, mi, sec, f⟩
                            else none

/-- Outcome of `get_datetime_from_log_line`: `None`, a `datetime`, or a
`ValueError` raised by `strptime`. -/
inductive ExtractResult where
  | noTimestamp : ExtractResult
  | timestamp : LogDateTime → ExtractResult
  | parseError : ExtractResult
deriving DecidableEq

/-- `log_line.split("]")[0]`: the text before the first `]` (the whole
string when there is none). -/
def pySplitHead (s : List Char) : List Char := s.takeWhile (fun c => c ≠ ']')

/-- `.lstrip("[")`: drop every leading `[`. -/
def pyLstripLB (s : List Char) : List Char := s.dropWhile (fun c => c = '[')

/-- `get_datetime_from_log_line` from `log_process.py`: if the line
starts with `[`, split at the first `]`, strip leading `[` characters
and parse with the fixed format; otherwise return `None`. -/
def get_datetime_from_log_line (log_line : String) : ExtractResult :=
  match log_line.data with
  | '[' :: _ =>
    match parseLogTime (pyLstripLB (pySplitHead log_line.data)) with
    | some t => .timestamp t
    | none => .parseError
  | _ => .noTimestamp

/-- Days before the first day of year `y` in the proleptic Gregorian
calendar (`date(y, 1, 1).toordinal() - 1`). -/
def daysBeforeYear (y : Nat) : Nat :=
  (y - 1) * 365 + (y - 1) / 4 - (y - 1) / 100 + (y - 1) / 400

/-- Days before the first day of month `m` in year `y`. -/
def daysBeforeMonth (y m : Nat) : Nat :=
  (match m with
   | 1 => 0 | 2 => 31 | 3 => 59 | 4 => 90 | 5 => 120 | 6 => 151
   | 7 => 181 | 8 => 212 | 9 => 243 | 10 => 273 | 11 => 304 | _ => 334)
  + (if 3 ≤ m && isLeapYear y then 1 else 0)

/-- `date(y, m, d).toordinal()`. -/
def toOrdinal (y m d : Nat) : Nat := daysBeforeYear y + daysBeforeMonth y m + d

/-- Microseconds from `datetime.min` to the given `datetime` value. -/
def toMicros (t : LogDateTime) : Nat :=
  ((toOrdinal t.year t.month t.day - 1) * 86400
    + t.hour * 3600 + t.minute * 60 + t.second) * 1000000 + t.micro

/-- `datetime.combine(t, time())`: truncate to midnight of the same day. -/
def dateMidnight (t : Nat) : Nat := t / microsPerDay * microsPerDay

/-- Source line 69: `log_date_object + (datetime.min - log_date_object) % delta`.
`datetime.min` is offset `0`, and Python's `%` on durations is the
flooring modulus, which for a positive divisor agrees with `Int.emod`. -/
def roundedLogDate (t w : Nat) : Int := (t : Int) + ((0 : Int) - (t : Int)) % (w : Int)

/-- The rounded bucket key as a microsecond offset. -/
def roundedKey (t w : Nat) : Nat := (roundedLogDate t w).toNat

/-- `dict.get(k)` on an insertion-ordered association list. -/
def dictGet : List (Nat × Nat) → Nat → Option Nat
  | [], _ => none
  | p :: rest, k => if p.1 = k then some p.2 else dictGet rest k

/-- Source lines 70-74: `d[k] += 1` when `k` is present (in place),
otherwise `d[k] = 1` (appended at the end, Python dicts keep insertion
order). -/
def dictBump : List (Nat × Nat) → Nat → List (Nat × Nat)
  | [], k => [(k, 1)]
  | p :: rest, k => if p.1 = k then (p.1, p.2 + 1) :: rest else p :: dictBump rest k

/-- Outcome of the first pass (source lines 59-62): the day anchor of
the first timestamped line, a propagated parse error, or exhaustion of
the file with no timestamped line found. -/
inductive FirstPassResult where
  | anchorFound : Nat → FirstPassResult
  | parseError : FirstPassResult
  | exhausted : FirstPassResult
deriving DecidableEq

/-- Structural model of the first pass: scan the lines in order for the
first one yielding a timestamp and truncate it to midnight. -/
def firstPass : List String → FirstPassResult
  | [] => .exhausted
  | l :: ls =>
    match get_datetime_from_log_line l with
    | .timestamp t => .anchorFound (dateMidnight (toMicros t))
    | .noTimestamp => firstPass ls
    | .parseError => .parseError

/-- Fuel-indexed model of the actual first-pass loop
`while log_date_object is None: log_file.readline()`.  After the lines
are exhausted, `readline()` keeps returning the empty string, which the
extractor maps to `None`, so the loop keeps going; `none` means the loop
is still running when the fuel runs out. -/
def firstPassFuel : Nat → List String → Option FirstPassResult
  | 0, _ => none
  | fuel + 1, [] =>
    match get_datetime_from_log_line "" with
    | .timestamp t => some (.anchorFound (dateMidnight (toMicros t)))
    | .noTimestamp => firstPassFuel fuel []
    | .parseError => some .parseError
  | fuel + 1, l :: ls =>
    match get_datetime_from_log_line l with
    | .timestamp t => some (.anchorFound (dateMidnight (toMicros t)))
    | .noTimestamp => firstPassFuel fuel ls
    | .parseError => some .parseError

/-- Source line 63: the pre-seeded histogram
`{anchor + i * delta : 0 for i in range(timedelta(days=1) // delta)}`. -/
def preSeedList (anchor w : Nat) : List (Nat × Nat) :=
  (List.range (microsPerDay / w)).map (fun i => (anchor + i * w, 0))

/-- Source lines 66-74: the counting pass over every line; a line that
raises inside `strptime` aborts the whole scan (`none`). -/
def countLines (w : Nat) : List String → List (Nat × Nat) → Option (List (Nat × Nat))
  | [], h => some h
  | l :: ls, h =>
    match get_datetime_from_log_line l with
    | .timestamp t => countLines w ls (dictBump h (roundedKey (toMicros t) w))
    | .noTimestamp => countLines w ls h
    | .parseError => none

/-- Outcome of `get_log_activity_interval`: a histogram, a propagated
`ValueError` from `strptime`, or divergence of the first pass (the
source loops forever when no line yields a timestamp; `hang` marks
exactly the runs justified as divergent by `firstPassFuel`). -/
inductive AggResult where
  | ok : List (Nat × Nat) → AggResult
  | parseError : AggResult
  | hang : AggResult
deriving DecidableEq

/-- `get_log_activity_interval` from `log_process.py`, on the list of
lines of the file and the interval width `w` in microseconds
(`timedelta(**interval)`; the default `{"minutes": 30}` is
`1800000000`). -/
def get_log_activity_interval (lines : List String) (w : Nat) : AggResult :=
  match firstPass lines with
  | .anchorFound a =>
    match countLines w lines (preSeedList a w) with
    | some h => .ok h
    | none => .parseError
  | .parseError => .parseError
  | .exhausted => .hang

/-- Sum of the counts of a histogram. -/
def sumCounts (h : List (Nat × Nat)) : Nat := (h.map Prod.snd).sum

/-- Whether a line yields a timestamp. -/
def yieldsTimestamp (l : String) : Bool :=
  match get_datetime_from_log_line l with
  | .timestamp _ => true
  | _ => false

/-- The decimal digit character of value `k` (meaningful for `k ≤ 9`). -/
def digitChar : Nat → Char
  | 0 => '0' | 1 => '1' | 2 => '2' | 3 => '3' | 4 => '4'
  | 5 => '5' | 6 => '6' | 7 => '7' | 8 => '8' | _ => '9'

/-- Two-digit zero-padded rendering. -/
def pad2 (n : Nat) : List Char := [digitChar (n / 10), digitChar (n % 10)]

/-- Four-digit zero-padded rendering. -/
def pad4 (n : Nat) : List Char :=
  [digitChar (n / 1000), digitChar (n / 100 % 10), digitChar (n / 10 % 10), digitChar (n % 10)]

/-- Six-digit zero-padded rendering. -/
def pad6 (n : Nat) : List Char :=
  [digitChar (n / 100000), digitChar (n / 10000 % 10), digitChar (n / 1000 % 10),
   digitChar (n / 100 % 10), digitChar (n / 10 % 10), digitChar (n % 10)]

/-- A `datetime` rendered in the fixed format `YYYY-MM-DD HH:MM:SS.ffffff`
(the spec's `format(T)`), right-nested to follow the parsing order. -/
def formatTimestamp (t : LogDateTime) : List Char :=
  pad4 t.year ++ '-' :: (pad2 t.month ++ '-' :: (pad2 t.day ++ ' ' :: (pad2 t.hour
    ++ ':' :: (pad2 t.minute ++ ':' :: (pad2 t.second ++ '.' :: pad6 t.micro)))))

/-- The field bounds of a representable `datetime` value. -/
abbrev validTimestamp (t : LogDateTime) : Prop :=
  1 ≤ t.year ∧ t.year ≤ 9999 ∧ 1 ≤ t.month ∧ t.month ≤ 12 ∧ 1 ≤ t.day ∧
  t.day ≤ daysInMonth t.year t.month ∧ t.hour ≤ 23 ∧ t.minute ≤ 59 ∧
  t.second ≤ 59 ∧ t.micro ≤ 999999

/-- The scenario file of claim C1: one line, default 30-minute interval;
`c1Hist` is the histogram the aggregator returns on it. -/
def c1Hist : List (Nat × Nat) :=
  match get_log_activity_interval ["[2021-05-01 21:10:30.781] some text"] 1800000000 with
  | .ok h => h
  | _ => []

/-- A two-line concrete file (one timestamped line, one plain line) used
to instantiate the counting-phase theorems. -/
def sampleLines : List String :=
  ["[2021-05-01 21:10:30.781] some text", "no timestamp here"]

/-- The histogram the aggregator returns on `sampleLines` with the
default 30-minute interval (empty if the run fails). -/
def sampleHist : List (Nat × Nat) :=
  match get_log_activity_interval sampleLines 1800000000 with
  | .ok h => h
  | _ => []

/-! ### Digit and matcher lemmas -/

theorem toNat_digitChar (k : Nat) (hk : k ≤ 9) : (digitChar k).toNat = 48 + k := by
  interval_cases k <;> rfl

theorem isDigitChar_digitChar (k : Nat) (hk : k ≤ 9) : isDigitChar (digitChar k) = true := by
  interval_cases k <;> rfl

theorem digitVal_digitChar (k : Nat) (hk : k ≤ 9) : digitVal (digitChar k) = k := by
  interval_cases k <;> rfl

theorem digitChar_ne_rb (k : Nat) : digitChar k ≠ ']' := by
  unfold digitChar; split <;> decide

theorem digitChar_ne_lb (k : Nat) : digitChar k ≠ '[' := by
  unfold digitChar; split <;> decide

theorem isPySpace_digitChar (k : Nat) : isPySpace (digitChar k) = false := by
  unfold digitChar; split <;> decide

theorem matchYear4_pad (y : Nat) (hy : y ≤ 9999) (rest : List Char) :
    matchYear4 (pad4 y ++ rest) = some (y, rest) := by
  have h1 : y / 1000 ≤ 9 := by omega
  have h2 : y / 100 % 10 ≤ 9 := by omega
  have h3 : y / 10 % 10 ≤ 9 := by omega
  have h4 : y % 10 ≤ 9 := by omega
  simp [pad4, matchYear4, isDigitChar_digitChar _ h1, isDigitChar_digitChar _ h2,
    isDigitChar_digitChar _ h3, isDigitChar_digitChar _ h4,
    digitVal_digitChar _ h1, digitVal_digitChar _ h2,
    digitVal_digitChar _ h3, digitVal_digitChar _ h4]
  omega

theorem matchMonth_pad (m : Nat) (h1 : 1 ≤ m) (h2 : m ≤ 12) (rest : List Char) :
    matchMonth (pad2 m ++ rest) = some (m, rest) := by
  interval_cases m <;> rfl

theorem matchDay_pad (d : Nat) (h1 : 1 ≤ d) (h2 : d ≤ 31) (rest : List Char) :
    matchDay (pad2 d ++ rest) = some (d, rest) := by
  interval_cases d <;> rfl

theorem matchHour_pad (h : Nat) (h1 : h ≤ 23) (rest : List Char) :
    matchHour (pad2 h ++ rest) = some (h, rest) := by
  interval_cases h <;> rfl

theorem matchMinute_pad (m : Nat) (h1 : m ≤ 59) (rest : List Char) :
    matchMinute (pad2 m ++ rest) = some (m, rest) := by
  interval_cases m <;> rfl

theorem matchSecond_pad (s : Nat) (h1 : s ≤ 59) (rest : List Char) :
    matchSecond (pad2 s ++ rest) = some (s, rest) := by
  interval_cases s <;> rfl

theorem matchLit_cons (ch : Char) (rest : List Char) :
    matchLit ch (ch :: rest) = some rest := by
  simp [matchLit]

theorem matchFraction_pad6 (f : Nat) (hf : f ≤ 999999) :
    matchFraction (pad6 f) = some (f, []) := by
  have h1 : f / 100000 ≤ 9 := by omega
  have h2 : f / 10000 % 10 ≤ 9 := by omega
  have h3 : f / 1000 % 10 ≤ 9 := by omega
  have h4 : f / 100 % 10 ≤ 9 := by omega
  have h5 : f / 10 % 10 ≤ 9 := by omega
  have h6 : f % 10 ≤ 9 := by omega
  simp [pad6, matchFraction, List.takeWhile, isDigitChar_digitChar _ h1,
    isDigitChar_digitChar _ h2, isDigitChar_digitChar _ h3, isDigitChar_digitChar _ h4,
    isDigitChar_digitChar _ h5, isDigitChar_digitChar _ h6,
    digitVal_digitChar _ h1, digitVal_digitChar _ h2, digitVal_digitChar _ h3,
    digitVal_digitChar _ h4, digitVal_digitChar _ h5, digitVal_digitChar _ h6]
  omega

/-! ### List scanning lemmas -/

theorem takeWhile_all_append (p : Char → Bool) (xs : List Char) (y : Char) (r : List Char)
    (hxs : ∀ c ∈ xs, p c = true) (hy : p y = false) :
    List.takeWhile p (xs ++ y :: r) = xs := by
  induction xs with
  | nil => simp [List.takeWhile, hy]
  | cons a as ih =>
    have ha : p a = true := hxs a (by simp)
    simp only [List.cons_append, List.takeWhile, ha]
    rw [List.append_eq, ih (fun c hc => hxs c (by simp [hc]))]

theorem dropWhile_replicate_append (p : Char → Bool) (k : Nat) (x : Char) (xs : List Char)
    (hx : p x = true) :
    List.dropWhile p (List.replicate k x ++ xs) = List.dropWhile p xs := by
  induction k with
  | zero => simp
  | succ n ih => simp [List.replicate_succ, List.dropWhile, hx, ih]

theorem pad2_chars (n : Nat) : ∀ c ∈ pad2 n, ∃ k, c = digitChar k := by
  intro c hc
  simp only [pad2, List.mem_cons, List.not_mem_nil, or_false] at hc
  rcases hc with rfl | rfl
  exacts [⟨_, rfl⟩, ⟨_, rfl⟩]

theorem pad4_chars (n : Nat) : ∀ c ∈ pad4 n, ∃ k, c = digitChar k := by
  intro c hc
  simp only [pad4, List.mem_cons, List.not_mem_nil, or_false] at hc
  rcases hc with rfl | rfl | rfl | rfl
  exacts [⟨_, rfl⟩, ⟨_, rfl⟩, ⟨_, rfl⟩, ⟨_, rfl⟩]

theorem pad6_chars (n : Nat) : ∀ c ∈ pad6 n, ∃ k, c = digitChar k := by
  intro c hc
  simp only [pad6, List.mem_cons, List.not_mem_nil, or_false] at hc
  rcases hc with rfl | rfl | rfl | rfl | rfl | rfl
  exacts [⟨_, rfl⟩, ⟨_, rfl⟩, ⟨_, rfl⟩, ⟨_, rfl⟩, ⟨_, rfl⟩, ⟨_, rfl⟩]

theorem formatTimestamp_chars (t : LogDateTime) :
    ∀ c ∈ formatTimestamp t, c ≠ ']' ∧ c ≠ '[' := by
  intro c hc
  simp only [formatTimestamp, List.mem_append, List.mem_cons] at hc
  rcases hc with h | rfl | h | rfl | h | rfl | h | rfl | h | rfl | h | rfl | h
  · obtain ⟨k, rfl⟩ := pad4_chars _ _ h; exact ⟨digitChar_ne_rb k, digitChar_ne_lb k⟩
  · exact ⟨by decide, by decide⟩
  · obtain ⟨k, rfl⟩ := pad2_chars _ _ h; exact ⟨digitChar_ne_rb k, digitChar_ne_lb k⟩
  · exact ⟨by decide, by decide⟩
  · obtain ⟨k, rfl⟩ := pad2_chars _ _ h; exact ⟨digitChar_ne_rb k, digitChar_ne_lb k⟩
  · exact ⟨by decide, by decide⟩
  · obtain ⟨k, rfl⟩ := pad2_chars _ _ h; exact ⟨digitChar_ne_rb k, digitChar_ne_lb k⟩
  · exact ⟨by decide, by decide⟩
  · obtain ⟨k, rfl⟩ := pad2_chars _ _ h; exact ⟨digitChar_ne_rb k, digitChar_ne_lb k⟩
  · exact ⟨by decide, by decide⟩
  · obtain ⟨k, rfl⟩ := pad2_chars _ _ h; exact ⟨digitChar_ne_rb k, digitChar_ne_lb k⟩
  · exact ⟨by decide, by decide⟩
  · obtain ⟨k, rfl⟩ := pad6_chars _ _ h; exact ⟨digitChar_ne_rb k, digitChar_ne_lb k⟩

theorem daysInMonth_le_31 (y m : Nat) : daysInMonth y m ≤ 31 := by
  unfold daysInMonth
  split_ifs <;> omega

theorem dropWhileSpaces_pad2 (n : Nat) (rest : List Char) :
    List.dropWhile isPySpace (pad2 n ++ rest) = pad2 n ++ rest := by
  simp [pad2, List.dropWhile, isPySpace_digitChar]

theorem matchSpacesPlus_space_pad2 (n : Nat) (rest : List Char) :
    matchSpacesPlus (' ' :: (pad2 n ++ rest)) = some (pad2 n ++ rest) := by
  have h1 : isPySpace ' ' = true := by decide
  simp [matchSpacesPlus, h1, dropWhileSpaces_pad2]

theorem parseLogTime_formatTimestamp (t : LogDateTime) (h : validTimestamp t) :
    parseLogTime (formatTimestamp t) = some t := by
  obtain ⟨y, mo, d, hh, mi, s, f⟩ := t
  obtain ⟨hy1, hy2, hm1, hm2, hd1, hd2, hh1, hmi1, hs1, hf1⟩ := h
  have hd31 : d ≤ 31 := le_trans hd2 (daysInMonth_le_31 y mo)
  unfold parseLogTime
  simp only [formatTimestamp, matchYear4_pad y hy2, matchLit_cons,
    matchMonth_pad mo hm1 hm2, matchDay_pad d hd1 hd31, matchSpacesPlus_space_pad2,
    matchHour_pad hh hh1, matchMinute_pad mi hmi1, matchSecond_pad s hs1,
    matchFraction_pad6 f hf1]
  rw [if_pos ⟨trivial, hy1, hd2, hs1⟩]

/-! ### Extraction lemmas -/

theorem extract_eq_of_data_cons (line : String) (rest : List Char)
    (hdata : line.data = '[' :: rest) :
    get_datetime_from_log_line line =
      match parseLogTime (pyLstripLB (pySplitHead ('[' :: rest))) with
      | some t => .timestamp t
      | none => .parseError := by
  unfold get_datetime_from_log_line
  rw [hdata]
  rfl

theorem pyLstripLB_cons_lb (rest : List Char) :
    pyLstripLB ('[' :: rest) = pyLstripLB rest := by
  simp [pyLstripLB, List.dropWhile]

theorem pyLstripLB_digit_head (k : Nat) (rest : List Char) :
    pyLstripLB (digitChar k :: rest) = digitChar k :: rest := by
  simp [pyLstripLB, List.dropWhile, digitChar_ne_lb k]

/-- C7: for every valid timestamp `T`, rendering `T` in the fixed format
`YYYY-MM-DD HH:MM:SS.ffffff`, wrapping it as a bracketed log-line
prefix, and applying the timestamp extractor returns `T` again:
extraction is a left inverse of formatting. -/
theorem extract_bracketed_format (t : LogDateTime) (h : validTimestamp t)
    (suffix : List Char) :
    get_datetime_from_log_line
      (String.mk ('[' :: (formatTimestamp t ++ ']' :: suffix))) = .timestamp t := by
  rw [extract_eq_of_data_cons _ (formatTimestamp t ++ ']' :: suffix) rfl]
  have hsplit : pySplitHead ('[' :: (formatTimestamp t ++ ']' :: suffix))
      = '[' :: formatTimestamp t := by
    unfold pySplitHead
    show List.takeWhile _ (('[' :: formatTimestamp t) ++ ']' :: suffix)
      = '[' :: formatTimestamp t
    apply takeWhile_all_append
    · intro c hc
      rcases List.mem_cons.mp hc with rfl | hcf
      · decide
      · show decide (¬ c = ']') = true
        simp only [decide_eq_true_eq]
        exact (formatTimestamp_chars t c hcf).1
    · decide
  rw [hsplit, pyLstripLB_cons_lb]
  have hstrip : pyLstripLB (formatTimestamp t) = formatTimestamp t := by
    simp only [formatTimestamp, pad4, List.cons_append]
    exact pyLstripLB_digit_head _ _
  rw [hstrip, parseLogTime_formatTimestamp t h]

/-! ### Rounding lemmas -/

theorem neg_emod_nat (t w : Nat) (hw : 0 < w) :
    ((0 : Int) - (t : Int)) % (w : Int) = (((w - t % w) % w : Nat) : Int) := by
  have hq : t / w * w + t % w = t := by
    rw [Nat.mul_comm]
    exact Nat.div_add_mod t w
  have hrw : t % w < w := Nat.mod_lt t hw
  have ht : (t : Int) = (t / w : Nat) * (w : Int) + (t % w : Nat) := by
    exact_mod_cast hq.symm
  rw [ht]
  have h0 : (0 : Int) - ((t / w : Nat) * (w : Int) + (t % w : Nat))
      = (0 - (t % w : Nat)) + (0 - (t / w : Nat)) * (w : Int) := by ring
  rw [h0, Int.add_mul_emod_self]
  rcases Nat.eq_zero_or_pos (t % w) with hr0 | hrpos
  · simp [hr0, Nat.mod_self]
  · have h1 : ((0 : Int) - (t % w : Nat)) % w = ((0 - (t % w : Nat)) + 1 * w) % w :=
      (Int.add_mul_emod_self).symm
    have h2 : ((0 : Int) - (t % w : Nat)) + 1 * w = (w : Int) - (t % w : Nat) := by ring
    rw [h1, h2]
    have h3 : ((w : Int) - (t % w : Nat)) % w = (w : Int) - (t % w : Nat) :=
      Int.emod_eq_of_lt (by omega) (by omega)
    rw [h3]
    have h4 : (w - t % w) % w = w - t % w := Nat.mod_eq_of_lt (by omega)
    rw [h4]
    omega

theorem roundedKey_eq (t w : Nat) (hw : 0 < w) :
    roundedKey t w = t + (w - t % w) % w := by
  unfold roundedKey roundedLogDate
  rw [neg_emod_nat t w hw, ← Nat.cast_add]
  exact Int.toNat_natCast _

/-! ### Histogram lemmas -/

theorem sumCounts_dictBump (h : List (Nat × Nat)) (k : Nat) :
    sumCounts (dictBump h k) = sumCounts h + 1 := by
  induction h with
  | nil => rfl
  | cons p rest ih =>
    simp only [dictBump]
    by_cases hpk : p.1 = k
    · rw [if_pos hpk]
      simp only [sumCounts, List.map_cons, List.sum_cons]
      omega
    · rw [if_neg hpk]
      simp only [sumCounts, List.map_cons, List.sum_cons] at ih ⊢
      omega

theorem dictGet_dictBump_mono (hl : List (Nat × Nat)) (k q v : Nat)
    (hq : dictGet hl q = some v) :
    ∃ v2, dictGet (dictBump hl k) q = some v2 ∧ v ≤ v2 := by
  induction hl with
  | nil => simp [dictGet] at hq
  | cons p rest ih =>
    simp only [dictBump]
    by_cases hpk : p.1 = k
    · rw [if_pos hpk]
      by_cases hpq : p.1 = q
      · simp only [dictGet, if_pos hpq] at hq ⊢
        injection hq with hv
        exact ⟨p.2 + 1, rfl, by omega⟩
      · simp only [dictGet, if_neg hpq] at hq ⊢
        exact ⟨v, hq, le_refl v⟩
    · rw [if_neg hpk]
      by_cases hpq : p.1 = q
      · simp only [dictGet, if_pos hpq] at hq ⊢
        injection hq with hv
        exact ⟨p.2, rfl, by omega⟩
      · simp only [dictGet, if_neg hpq] at hq ⊢
        exact ih hq

theorem sumCounts_preSeedList (a w : Nat) : sumCounts (preSeedList a w) = 0 := by
  unfold sumCounts preSeedList
  rw [List.map_map]
  apply List.sum_eq_zero
  intro x hx
  rw [List.mem_map] at hx
  obtain ⟨i, _, hxe⟩ := hx
  exact hxe.symm

/-! ### Counting-pass lemmas -/

theorem countLines_sum (w : Nat) :
    ∀ (ls : List String) (h h2 : List (Nat × Nat)),
      countLines w ls h = some h2 →
      sumCounts h2 = sumCounts h + ls.countP yieldsTimestamp := by
  intro ls
  induction ls with
  | nil =>
    intro h h2 hc
    simp only [countLines] at hc
    injection hc with hc
    simp [hc]
  | cons l ls2 ih =>
    intro h h2 hc
    cases hx : get_datetime_from_log_line l with
    | noTimestamp =>
      simp only [countLines, hx] at hc
      have hy : yieldsTimestamp l = false := by simp [yieldsTimestamp, hx]
      rw [ih _ _ hc, List.countP_cons, hy]
      simp
    | timestamp t =>
      simp only [countLines, hx] at hc
      have hy : yieldsTimestamp l = true := by simp [yieldsTimestamp, hx]
      rw [ih _ _ hc, sumCounts_dictBump, List.countP_cons, hy]
      simp
      omega
    | parseError => simp [countLines, hx] at hc

theorem countLines_mono (w : Nat) :
    ∀ (ls : List String) (h h2 : List (Nat × Nat)),
      countLines w ls h = some h2 →
      ∀ k v, dictGet h k = some v → ∃ v2, dictGet h2 k = some v2 ∧ v ≤ v2 := by
  intro ls
  induction ls with
  | nil =>
    intro h h2 hc k v hk
    simp only [countLines] at hc
    injection hc with hc
    exact ⟨v, hc ▸ hk, le_refl v⟩
  | cons l ls2 ih =>
    intro h h2 hc k v hk
    cases hx : get_datetime_from_log_line l with
    | noTimestamp =>
      simp only [countLines, hx] at hc
      exact ih _ _ hc k v hk
    | timestamp t =>
      simp only [countLines, hx] at hc
      obtain ⟨v1, hv1, hle1⟩ := dictGet_dictBump_mono h (roundedKey (toMicros t) w) k v hk
      obtain ⟨v2, hv2, hle2⟩ := ih _ _ hc k v1 hv1
      exact ⟨v2, hv2, le_trans hle1 hle2⟩
    | parseError => simp [countLines, hx] at hc

theorem countLines_none_of_parseError (w : Nat) (line : String)
    (herr : get_datetime_from_log_line line = .parseError) :
    ∀ (ls : List String), line ∈ ls → ∀ h, countLines w ls h = none := by
  intro ls
  induction ls with
  | nil => intro hmem; cases hmem
  | cons l ls2 ih =>
    intro hmem h
    rcases List.mem_cons.mp hmem with rfl | hmem2
    · simp [countLines, herr]
    · cases hx : get_datetime_from_log_line l with
      | noTimestamp => simp only [countLines, hx]; exact ih hmem2 h
      | timestamp t => simp only [countLines, hx]; exact ih hmem2 _
      | parseError => simp [countLines, hx]

/-! ### First-pass lemmas -/

theorem firstPass_all_noTimestamp (lines : List String)
    (h : ∀ l ∈ lines, get_datetime_from_log_line l = .noTimestamp) :
    firstPass lines = .exhausted := by
  induction lines with
  | nil => rfl
  | cons l ls ih =>
    have hl := h l (List.mem_cons_self l ls)
    simp only [firstPass, hl]
    exact ih (fun x hx => h x (List.mem_cons_of_mem l hx))

theorem firstPassFuel_all_noTimestamp :
    ∀ (fuel : Nat) (lines : List String),
      (∀ l ∈ lines, get_datetime_from_log_line l = .noTimestamp) →
      firstPassFuel fuel lines = none := by
  intro fuel
  induction fuel with
  | zero => intro lines h; rfl
  | succ n ih =>
    intro lines h
    cases lines with
    | nil =>
      have he : get_datetime_from_log_line "" = .noTimestamp := rfl
      simp only [firstPassFuel, he]
      exact ih [] (by intro l hl; cases hl)
    | cons l ls =>
      have hl := h l (List.mem_cons_self l ls)
      simp only [firstPassFuel, hl]
      exact ih ls (fun x hx => h x (List.mem_cons_of_mem l hx))

theorem firstPass_ne_exhausted_of_parseError (lines : List String) (line : String)
    (hmem : line ∈ lines) (herr : get_datetime_from_log_line line = .parseError) :
    firstPass lines ≠ .exhausted := by
  induction lines with
  | nil => cases hmem
  | cons l ls ih =>
    rcases List.mem_cons.mp hmem with rfl | hmem2
    · simp [firstPass, herr]
    · cases hx : get_datetime_from_log_line l with
      | noTimestamp => simp only [firstPass, hx]; exact ih hmem2
      | timestamp t => simp [firstPass, hx]
      | parseError => simp [firstPass, hx]

/-! ### Aggregator unfolding lemmas -/

theorem agg_of_anchorFound (lines : List String) (w a : Nat)
    (hfp : firstPass lines = .anchorFound a) :
    get_log_activity_interval lines w =
      match countLines w lines (preSeedList a w) with
      | some h => .ok h
      | none => .parseError := by
  unfold get_log_activity_interval
  rw [hfp]

theorem agg_of_parseError (lines : List String) (w : Nat)
    (hfp : firstPass lines = .parseError) :
    get_log_activity_interval lines w = .parseError := by
  unfold get_log_activity_interval
  rw [hfp]

theorem agg_of_exhausted (lines : List String) (w : Nat)
    (hfp : firstPass lines = .exhausted) :
    get_log_activity_interval lines w = .hang := by
  unfold get_log_activity_interval
  rw [hfp]

/-! ### Claim theorems -/

/-- C7 witness: the round trip at the concrete timestamp
2021-05-01 21:10:30.781000 with the suffix of the scenario line. -/
theorem extract_bracketed_format_witness :
    get_datetime_from_log_line
      (String.mk ('[' :: (formatTimestamp ⟨2021, 5, 1, 21, 10, 30, 781000⟩
        ++ ']' :: " some text".data)))
      = .timestamp ⟨2021, 5, 1, 21, 10, 30, 781000⟩ :=
  extract_bracketed_format ⟨2021, 5, 1, 21, 10, 30, 781000⟩ (by decide) (" some text".data)

/-- C1 counterexample: for the scenario line
`"[2021-05-01 21:10:30.781] some text"` with a 30-minute interval, the
bucket the code uses is not the round-DOWN value
`t - ((t - epoch) mod w)` claimed by the spec: the returned histogram
counts the line in the 21:30:00 bucket and leaves the claimed 21:00:00
bucket at zero. -/
theorem roundDown_bucket_claim_false :
    roundedKey (toMicros ⟨2021, 5, 1, 21, 10, 30, 781000⟩) 1800000000
        ≠ toMicros ⟨2021, 5, 1, 21, 10, 30, 781000⟩
          - (toMicros ⟨2021, 5, 1, 21, 10, 30, 781000⟩ - 0) % 1800000000 ∧
    dictGet c1Hist (toMicros ⟨2021, 5, 1, 21, 0, 0, 0⟩) = some 0 ∧
    dictGet c1Hist (toMicros ⟨2021, 5, 1, 21, 30, 0, 0⟩) = some 1 := by
  decide

/-- C1 (amended): for every timestamp `t` and interval width `w > 0`,
the aggregator assigns `t` to the bucket boundary obtained by rounding
`t` UP to the nearest multiple of `w` relative to the fixed epoch:
the key equals `t + ((w - (t - epoch) mod w) mod w)`, it is a multiple
of `w`, and it is the least such multiple at or above `t`.  (With
`w` = 30 minutes the scenario line lands in bucket 2021-05-01 21:30:00.) -/
theorem roundedKey_rounds_up (t w : Nat) (hw : 0 < w) :
    roundedKey t w = t + (w - t % w) % w ∧
    roundedKey t w % w = 0 ∧
    t ≤ roundedKey t w ∧
    roundedKey t w < t + w := by
  have he := roundedKey_eq t w hw
  refine ⟨he, ?_, ?_, ?_⟩
  · rw [he]
    rcases Nat.eq_zero_or_pos (t % w) with h0 | hpos
    · simp [h0, Nat.mod_self]
    · have hlt : t % w < w := Nat.mod_lt t hw
      have hm : (w - t % w) % w = w - t % w := Nat.mod_eq_of_lt (by omega)
      have h3 : t % w + (w - t % w) = w := by omega
      rw [hm, Nat.add_mod, hm, h3, Nat.mod_self]
  · rw [he]
    exact Nat.le_add_right t _
  · rw [he]
    exact Nat.add_lt_add_left (Nat.mod_lt _ hw) t

/-- C1 (amended) witness: the scenario timestamp with the default
30-minute interval. -/
theorem roundedKey_rounds_up_witness :
    roundedKey (toMicros ⟨2021, 5, 1, 21, 10, 30, 781000⟩) 1800000000
        = toMicros ⟨2021, 5, 1, 21, 10, 30, 781000⟩
          + (1800000000 - toMicros ⟨2021, 5, 1, 21, 10, 30, 781000⟩ % 1800000000)
            % 1800000000 ∧
    roundedKey (toMicros ⟨2021, 5, 1, 21, 10, 30, 781000⟩) 1800000000 % 1800000000 = 0 ∧
    toMicros ⟨2021, 5, 1, 21, 10, 30, 781000⟩
        ≤ roundedKey (toMicros ⟨2021, 5, 1, 21, 10, 30, 781000⟩) 1800000000 ∧
    roundedKey (toMicros ⟨2021, 5, 1, 21, 10, 30, 781000⟩) 1800000000
        < toMicros ⟨2021, 5, 1, 21, 10, 30, 781000⟩ + 1800000000 :=
  roundedKey_rounds_up (toMicros ⟨2021, 5, 1, 21, 10, 30, 781000⟩) 1800000000 (by decide)

/-- C2: the source loops forever on a file with no timestamped line
(the claim that it signals `NoTimestampedLineFound` describes the
intended behaviour, not the code): the first-pass loop is still running
after any amount of fuel, because `readline()` keeps returning the empty
string at end of file, and the whole aggregation diverges (`hang`). -/
theorem noTimestampedFile_loops_forever (lines : List String)
    (h : ∀ l ∈ lines, get_datetime_from_log_line l = .noTimestamp) :
    (∀ fuel, firstPassFuel fuel lines = none) ∧
    ∀ w, get_log_activity_interval lines w = .hang := by
  constructor
  · intro fuel
    exact firstPassFuel_all_noTimestamp fuel lines h
  · intro w
    unfold get_log_activity_interval
    rw [firstPass_all_noTimestamp lines h]

/-- C2 witness: the single-line file `"no timestamp here"`. -/
theorem noTimestampedFile_loops_forever_witness :
    firstPassFuel 1000 ["no timestamp here"] = none ∧
    get_log_activity_interval ["no timestamp here"] 1800000000 = .hang :=
  ⟨(noTimestampedFile_loops_forever ["no timestamp here"] (by decide)).1 1000,
   (noTimestampedFile_loops_forever ["no timestamp here"] (by decide)).2 1800000000⟩

/-- C3: whenever the aggregator returns a histogram, the sum of all its
counts equals the number of lines of the file that yield a valid
timestamp: each such line increments exactly one bucket and
non-timestamped lines contribute nothing. -/
theorem histogram_sum_counts_timestamped_lines (lines : List String) (w : Nat)
    (hist : List (Nat × Nat))
    (hok : get_log_activity_interval lines w = .ok hist) :
    sumCounts hist = lines.countP yieldsTimestamp := by
  cases hfp : firstPass lines with
  | anchorFound a =>
    rw [agg_of_anchorFound lines w a hfp] at hok
    cases hcl : countLines w lines (preSeedList a w) with
    | none =>
      rw [hcl] at hok
      simp at hok
    | some h2 =>
      rw [hcl] at hok
      simp at hok
      subst hok
      rw [countLines_sum w lines (preSeedList a w) _ hcl, sumCounts_preSeedList]
      omega
  | parseError =>
    rw [agg_of_parseError lines w hfp] at hok
    simp at hok
  | exhausted =>
    rw [agg_of_exhausted lines w hfp] at hok
    simp at hok

/-- C3 witness: a two-line file with one timestamped line. -/
theorem histogram_sum_counts_timestamped_lines_witness :
    sumCounts sampleHist = sampleLines.countP yieldsTimestamp :=
  histogram_sum_counts_timestamped_lines sampleLines 1800000000 sampleHist rfl

/-- C4: for every interval width `w > 0` dividing one day evenly, the
pre-seeding phase creates exactly `microsPerDay / w` buckets, the bucket
at index `i` has key `anchor + i * w` and count 0, and the keys are
strictly increasing with uniform spacing `w`. -/
theorem preSeed_bucket_spec (a w : Nat) (hw : 0 < w) (hdvd : w ∣ microsPerDay) :
    (preSeedList a w).length = microsPerDay / w ∧
    (∀ i, i < microsPerDay / w → (preSeedList a w)[i]? = some (a + i * w, 0)) ∧
    (∀ i j, i < j → j < microsPerDay / w → a + i * w < a + j * w) := by
  refine ⟨by simp [preSeedList], ?_, ?_⟩
  · intro i hi
    unfold preSeedList
    rw [List.getElem?_map, List.getElem?_range hi]
    rfl
  · intro i j hij hj
    exact Nat.add_lt_add_left (Nat.mul_lt_mul_of_lt_of_le hij (le_refl w) hw) a

/-- C4 witness: 30-minute buckets anchored at 2021-05-01 00:00:00 —
48 of them, and the last one starts at 23:30. -/
theorem preSeed_bucket_spec_witness :
    (preSeedList (toMicros ⟨2021, 5, 1, 0, 0, 0, 0⟩) 1800000000).length
        = microsPerDay / 1800000000 ∧
    (preSeedList (toMicros ⟨2021, 5, 1, 0, 0, 0, 0⟩) 1800000000)[47]?
        = some (toMicros ⟨2021, 5, 1, 0, 0, 0, 0⟩ + 47 * 1800000000, 0) :=
  ⟨(preSeed_bucket_spec (toMicros ⟨2021, 5, 1, 0, 0, 0, 0⟩) 1800000000
      (by decide) ⟨48, by decide⟩).1,
   (preSeed_bucket_spec (toMicros ⟨2021, 5, 1, 0, 0, 0, 0⟩) 1800000000
      (by decide) ⟨48, by decide⟩).2.1 47 (by decide)⟩

/-- C5: every line that does not start with `[` yields `None` (no
timestamp) and never a parse error. -/
theorem non_bracket_line_no_timestamp (line : String)
    (h : line.data.head? ≠ some '[') :
    get_datetime_from_log_line line = .noTimestamp := by
  unfold get_datetime_from_log_line
  split
  · rename_i tail heq
    exfalso
    apply h
    rw [heq]
    rfl
  · rfl

/-- C5 witness: the scenario line `"no timestamp here"`. -/
theorem non_bracket_line_no_timestamp_witness :
    get_datetime_from_log_line "no timestamp here" = .noTimestamp :=
  non_bracket_line_no_timestamp "no timestamp here" (by decide)

/-- C6: a line that starts with `[` but whose bracketed text does not
parse in the fixed format makes the extractor fail with a parse error,
and that error propagates out of the aggregator: a file containing such
a line yields `parseError`, never a histogram. -/
theorem malformed_bracket_line_propagates (line : String) (rest : List Char)
    (hdata : line.data = '[' :: rest)
    (hfail : parseLogTime (pyLstripLB (pySplitHead line.data)) = none) :
    get_datetime_from_log_line line = .parseError ∧
    ∀ (lines : List String) (w : Nat), line ∈ lines →
      get_log_activity_interval lines w = .parseError := by
  have hex : get_datetime_from_log_line line = .parseError := by
    rw [extract_eq_of_data_cons line rest hdata]
    rw [hdata] at hfail
    rw [hfail]
  refine ⟨hex, ?_⟩
  intro lines w hmem
  cases hfp : firstPass lines with
  | anchorFound a =>
    rw [agg_of_anchorFound lines w a hfp,
      countLines_none_of_parseError w line hex lines hmem (preSeedList a w)]
  | parseError => exact agg_of_parseError lines w hfp
  | exhausted =>
    exact absurd hfp (firstPass_ne_exhausted_of_parseError lines line hmem hex)

/-- C6 witness: the malformed line `"[bad timestamp] text"` inside a
file that also has a well-formed line. -/
theorem malformed_bracket_line_propagates_witness :
    get_datetime_from_log_line "[bad timestamp] text" = .parseError ∧
    get_log_activity_interval
      ["[2021-05-01 21:10:30.781] some text", "[bad timestamp] text"] 1800000000
      = .parseError :=
  ⟨(malformed_bracket_line_propagates "[bad timestamp] text"
      ("bad timestamp] text".data) (by decide) (by decide)).1,
   (malformed_bracket_line_propagates "[bad timestamp] text"
      ("bad timestamp] text".data) (by decide) (by decide)).2
     ["[2021-05-01 21:10:30.781] some text", "[bad timestamp] text"] 1800000000
     (by decide)⟩

/-- C8: rounding is idempotent: a timestamp already on a bucket
boundary (`(t - epoch) mod w = 0`) is mapped to itself by the
aggregator's rounding. -/
theorem roundedKey_idempotent_on_boundary (t w : Nat) (hw : 0 < w)
    (hb : t % w = 0) :
    roundedKey t w = t := by
  rw [roundedKey_eq t w hw, hb, Nat.sub_zero, Nat.mod_self, Nat.add_zero]

/-- C8 witness: 2021-05-01 21:30:00 is on a 30-minute boundary and is
mapped to itself. -/
theorem roundedKey_idempotent_on_boundary_witness :
    roundedKey (toMicros ⟨2021, 5, 1, 21, 30, 0, 0⟩) 1800000000
      = toMicros ⟨2021, 5, 1, 21, 30, 0, 0⟩ :=
  roundedKey_idempotent_on_boundary (toMicros ⟨2021, 5, 1, 21, 30, 0, 0⟩) 1800000000
    (by decide) (by decide)

/-- C9 counterexample: the line `"[[2021-05-01 21:10:30.781] some text"`
does NOT fail to parse as the claim states: `lstrip("[")` removes every
leading `[`, so the extractor returns the timestamp
2021-05-01 21:10:30.781000. -/
theorem double_bracket_line_parses :
    get_datetime_from_log_line "[[2021-05-01 21:10:30.781] some text"
      = .timestamp ⟨2021, 5, 1, 21, 10, 30, 781000⟩ := by
  decide

/-- C9 (amended): for every line starting with one or more `[`, the
extractor parses the substring up to (but excluding) the first `]` with
ALL leading `[` characters removed; in particular, for every number
`k ≥ 1` of leading brackets around the scenario timestamp the
extraction succeeds with that timestamp. -/
theorem extract_strips_all_leading_brackets (k : Nat) (hk : 1 ≤ k)
    (suffix : List Char) :
    get_datetime_from_log_line
      (String.mk (List.replicate k '[' ++ ("2021-05-01 21:10:30.781".data
        ++ ']' :: suffix)))
      = .timestamp ⟨2021, 5, 1, 21, 10, 30, 781000⟩ := by
  obtain ⟨k2, rfl⟩ : ∃ k2, k = k2 + 1 := ⟨k - 1, by omega⟩
  rw [extract_eq_of_data_cons _
    (List.replicate k2 '[' ++ ("2021-05-01 21:10:30.781".data ++ ']' :: suffix))
    (by rw [List.replicate_succ]; rfl)]
  have hsplit : pySplitHead ('[' :: (List.replicate k2 '['
      ++ ("2021-05-01 21:10:30.781".data ++ ']' :: suffix)))
      = '[' :: (List.replicate k2 '[' ++ "2021-05-01 21:10:30.781".data) := by
    unfold pySplitHead
    rw [← List.append_assoc]
    show List.takeWhile _ (('[' :: (List.replicate k2 '['
      ++ "2021-05-01 21:10:30.781".data)) ++ ']' :: suffix) = _
    apply takeWhile_all_append
    · intro c hc
      show decide (¬ c = ']') = true
      simp only [decide_eq_true_eq]
      rcases List.mem_cons.mp hc with rfl | hc2
      · decide
      · rcases List.mem_append.mp hc2 with hr | hb
        · rw [List.eq_of_mem_replicate hr]
          decide
        · have hbody : ∀ x ∈ "2021-05-01 21:10:30.781".data, x ≠ ']' := by decide
          exact hbody c hb
    · decide
  rw [hsplit, pyLstripLB_cons_lb]
  have hstrip : pyLstripLB (List.replicate k2 '[' ++ "2021-05-01 21:10:30.781".data)
      = "2021-05-01 21:10:30.781".data := by
    unfold pyLstripLB
    rw [dropWhile_replicate_append _ k2 '[' _ (by decide)]
    decide
  rw [hstrip]
  decide

/-- C9 (amended) witness: two leading brackets. -/
theorem extract_strips_all_leading_brackets_witness :
    get_datetime_from_log_line
      (String.mk (List.replicate 2 '[' ++ ("2021-05-01 21:10:30.781".data
        ++ ']' :: " some text".data)))
      = .timestamp ⟨2021, 5, 1, 21, 10, 30, 781000⟩ :=
  extract_strips_all_leading_brackets 2 (by decide) (" some text".data)

/-- C10: whenever the aggregator returns a histogram, every key created
during pre-seeding is still a key of the result, and its count never
went down: the counting phase only increments values in place or
appends new keys with count 1. -/
theorem preSeeded_keys_preserved (lines : List String) (w : Nat)
    (hist : List (Nat × Nat)) (a : Nat)
    (hfp : firstPass lines = .anchorFound a)
    (hok : get_log_activity_interval lines w = .ok hist)
    (k v : Nat) (hk : dictGet (preSeedList a w) k = some v) :
    ∃ v2, dictGet hist k = some v2 ∧ v ≤ v2 := by
  rw [agg_of_anchorFound lines w a hfp] at hok
  cases hcl : countLines w lines (preSeedList a w) with
  | none =>
    rw [hcl] at hok
    simp at hok
  | some h2 =>
    rw [hcl] at hok
    simp at hok
    subst hok
    exact countLines_mono w lines _ _ hcl k v hk

/-- C10 witness: the first pre-seeded bucket of the two-line sample
file survives into the returned histogram. -/
theorem preSeeded_keys_preserved_witness :
    ∃ v2, dictGet sampleHist (toMicros ⟨2021, 5, 1, 0, 0, 0, 0⟩) = some v2 ∧ 0 ≤ v2 :=
  preSeeded_keys_preserved sampleLines 1800000000 sampleHist
    (toMicros ⟨2021, 5, 1, 0, 0, 0, 0⟩) (by decide) rfl
    (toMicros ⟨2021, 5, 1, 0, 0, 0, 0⟩) 0 (by decide)
